import Mathlib

/-
  Verification development for the direct-marketing XGBoost notebook
  (xgboost_debugger_demo.ipynb).

  The notebook is embedded shallowly:
  * a pandas DataFrame is modelled column-wise as a list of
    (column name, column values) pairs, one value per row;
  * the feature-engineering cells (indicator columns, get_dummies, drop)
    are translated as functions on that representation;
  * the shuffle/split cell is modelled with the permutation produced by
    the seeded RNG abstracted as a function of (seed, length);
  * the CSV export is modelled as the list of rendered lines;
  * the smdebug trial and the plotting helpers (get_data, plot_collection,
    plot_feature_importance) are modelled over a trial record, with
    `re.match` given by a small regex interpreter covering the literal /
    dot / star fragment the notebook uses;
  * the status polling cell is modelled as a fuel-indexed loop over a
    stream of job descriptions.
-/

/-- A cell value of the table: numeric or categorical (string). -/
inductive Value where
  | num (n : Int)
  | str (s : String)
deriving DecidableEq, Repr

/-- A DataFrame, column-oriented: column names with their value lists
(one entry per row, all columns the same length in a well-formed frame). -/
abbrev Frame : Type := List (String × List Value)

/-- Column names of a frame, in order. -/
def colNames (df : Frame) : List String := df.map Prod.fst

/-- All columns of a well-formed frame have the same number of rows. -/
def FrameRows (df : Frame) (n : Nat) : Prop :=
  ∀ p ∈ df, p.2.length = n

/-- Model of `df[c]`: values of column `c` (first column of that name), `[]` if absent. -/
def getCol (df : Frame) (c : String) : List Value :=
  (List.lookup c df).getD []

/-- Model of `df[c] = vals`: replace column `c` if present, else append it at the end
(pandas `__setitem__` on a DataFrame). -/
def setCol (df : Frame) (c : String) (vals : List Value) : Frame :=
  if df.any (fun p => p.1 == c) then
    df.map (fun p => if p.1 == c then (c, vals) else p)
  else
    df ++ [(c, vals)]

/-- Model of `np.where(cond, 1, 0)` over an elementwise boolean series. -/
def npWhere (cond : List Bool) : List Value :=
  cond.map (fun b => if b then Value.num 1 else Value.num 0)

/-- The elementwise comparison `series == k` for an integer constant. -/
def seriesEqNum (vals : List Value) (k : Int) : List Bool :=
  vals.map (fun v => v == Value.num k)

/-- Model of `np.in1d(series, strs)`: for each element, membership in the given
string list (a numeric element is never equal to a string). -/
def np_in1d (vals : List Value) (strs : List String) : List Bool :=
  vals.map (fun v => match v with
    | Value.str s => strs.contains s
    | Value.num _ => false)

/-- pandas treats a column as categorical (object dtype) when it holds
string data; numeric columns are left alone by `get_dummies`. -/
def isObjectCol (vals : List Value) : Bool :=
  vals.any (fun v => match v with
    | Value.str _ => true
    | Value.num _ => false)

/-- Python string comparison: lexicographic on code points. -/
def strLeB : List Char → List Char → Bool
  | [], _ => true
  | _ :: _, [] => false
  | c :: a, d :: b => if c < d then true else if d < c then false else strLeB a b

/-- Python `s1 <= s2` on strings. -/
def pyStrLe (a b : String) : Bool := strLeB a.toList b.toList

/-- Python `sorted` on a list of strings. -/
def pySorted (l : List String) : List String := l.mergeSort pyStrLe

/-- The distinct string values of a categorical column, sorted — the
categories `pd.get_dummies` derives for an object column. -/
def distinctSorted (vals : List Value) : List String :=
  pySorted (vals.filterMap (fun v => match v with
    | Value.str s => some s
    | Value.num _ => none)).dedup

/-- The indicator column for category value `v`. -/
def dummyCol (vals : List Value) (v : String) : List Value :=
  vals.map (fun x => if x == Value.str v then Value.num 1 else Value.num 0)

/-- Model of `pd.get_dummies(df)`: keep the non-object columns (in order), then for
each object column (in order) one indicator column `c_v` per distinct
value `v`, in sorted value order. -/
def get_dummies (df : Frame) : Frame :=
  (df.filter (fun p => !isObjectCol p.2)) ++
    (df.filter (fun p => isObjectCol p.2)).flatMap
      (fun p => (distinctSorted p.2).map (fun v => (p.1 ++ "_" ++ v, dummyCol p.2 v)))

/-- Model of `df.drop(cs, axis=1)`: remove the named columns. -/
def dropCols (df : Frame) (cs : List String) : Frame :=
  df.filter (fun p => !cs.contains p.1)

/-- The two indicator-column assignments of the cleaning cell:
`data['no_previous_contact'] = np.where(data['pdays'] == 999, 1, 0)` and
`data['not_working'] = np.where(np.in1d(data['job'], ['student', 'retired',
'unemployed']), 1, 0)`. -/
def addCleanColumns (data : Frame) : Frame :=
  let d1 := setCol data "no_previous_contact" (npWhere (seriesEqNum (getCol data "pdays") 999))
  setCol d1 "not_working"
    (npWhere (np_in1d (getCol d1 "job") ["student", "retired", "unemployed"]))

/-- The six forecast-unavailable columns dropped from the model data. -/
def droppedColumns : List String :=
  ["duration", "emp.var.rate", "cons.price.idx", "cons.conf.idx", "euribor3m", "nr.employed"]

/-- The full cleaning step: indicator columns, one-hot expansion, drop of
the six economic/duration columns (cells 10 and 12 of the notebook). -/
def makeModelData (data : Frame) : Frame :=
  dropCols (get_dummies (addCleanColumns data)) droppedColumns

/-- Python slice semantics of `np.split(l, [i1, i2])`:
the sections `l[0:i1]`, `l[i1:i2]`, `l[i2:]`. -/
def npSplit3 {α : Type} (l : List α) (i1 i2 : Nat) : List α × List α × List α :=
  (l.take i1, (l.drop i1).take (i2 - i1), l.drop i2)

/-- Model of `df.sample(frac=1, random_state=rs)`: shuffle the rows with the
permutation the RNG yields. `mkPerm seed n` abstracts the permutation of
`[0..n)` numpy's seeded generator produces; when `random_state` is given
the generator is seeded from it, otherwise from the ambient global RNG
state. -/
def sampleFrac1 {α : Type} (mkPerm : Nat → Nat → List Nat) (globalSeed : Nat)
    (randomState : Option Nat) (rows : List α) : List α :=
  (mkPerm (randomState.getD globalSeed) rows.length).filterMap (fun i => rows[i]?)

/-- Model of `int(0.7 * n)`: the lower split point (exact arithmetic; the float
product agrees with the exact value at the data sizes involved). -/
def splitLo (n : Nat) : Nat := 7 * n / 10

/-- Model of `int(0.9 * n)`: the upper split point. -/
def splitHi (n : Nat) : Nat := 9 * n / 10

/-- Cell 14: `np.split(model_data.sample(frac=1, random_state=1729),
[int(0.7 * len(model_data)), int(0.9 * len(model_data))])`, viewed on the
row list of `model_data`. -/
def trainValTestSplit {α : Type} (mkPerm : Nat → Nat → List Nat) (globalSeed : Nat)
    (rows : List α) : List α × List α × List α :=
  npSplit3 (sampleFrac1 mkPerm globalSeed (some 1729) rows)
    (splitLo rows.length) (splitHi rows.length)

/-- How a cell is rendered by `to_csv`. -/
def valueCsvCell : Value → String
  | Value.num n => toString n
  | Value.str s => s

/-- The number of rows of a frame (length of its first column). -/
def frameRowCount (df : Frame) : Nat :=
  match df with
  | [] => 0
  | p :: _ => p.2.length

/-- The grid of rendered cells, row-major, one entry per row. -/
def csvCells (df : Frame) : List (List String) :=
  (List.range (frameRowCount df)).map
    (fun i => df.map (fun p => valueCsvCell (p.2.getD i (Value.num 0))))

/-- Model of `df.to_csv(path, index=False, header=False)`: the lines written — data
rows only, comma-joined, no header line and no index column. -/
def toCsvNoHeader (df : Frame) : List String :=
  (csvCells df).map (String.intercalate ",")

/-- Model of `pd.concat([split['y_yes'], split.drop(['y_no', 'y_yes'], axis=1)],
axis=1)`: the label series first, then the features with both one-hot
label columns removed. -/
def labelFirst (df : Frame) : Frame :=
  ("y_yes", getCol df "y_yes") :: dropCols df ["y_no", "y_yes"]

/-- Cell 16 for one split subset: the lines of the written CSV file. -/
def writeSplitCsv (split : Frame) : List String :=
  toCsvNoHeader (labelFirst split)

/-- A regex atom of the fragment the notebook uses: a literal character or
`.` (any character). -/
inductive RAtom where
  | lit (c : Char)
  | dot
deriving DecidableEq, Repr

/-- Whether an atom matches one character. -/
def atomMatch : RAtom → Char → Bool
  | RAtom.lit c, d => c == d
  | RAtom.dot, _ => true

/-- A regex term: a single atom, or an atom under `*`. -/
inductive RTerm where
  | atom (a : RAtom)
  | star (a : RAtom)
deriving DecidableEq, Repr

/-- A character of the pattern, as an atom. -/
def charAtom (c : Char) : RAtom :=
  if c = '.' then RAtom.dot else RAtom.lit c

/-- Parse the pattern fragment used by the notebook: literal characters,
`.`, and `*` applied to the preceding atom. -/
def parseRegex : List Char → List RTerm
  | [] => []
  | [c] => [RTerm.atom (charAtom c)]
  | c :: d :: rest =>
    if d = '*' then RTerm.star (charAtom c) :: parseRegex rest
    else RTerm.atom (charAtom c) :: parseRegex (d :: rest)

/-- Backtracking matcher: does the term list match some prefix of `s`? -/
def reMatchAt : List RTerm → List Char → Bool
  | [], _ => true
  | RTerm.atom _ :: _, [] => false
  | RTerm.atom a :: p, c :: s => atomMatch a c && reMatchAt p s
  | RTerm.star _ :: p, [] => reMatchAt p []
  | RTerm.star a :: p, c :: s =>
      reMatchAt p (c :: s) || (atomMatch a c && reMatchAt (RTerm.star a :: p) s)
termination_by p s => (s.length, p.length)

/-- Model of `bool(re.match(pattern, s))`: match anchored at the start of `s`. -/
def reMatch (pattern s : String) : Bool :=
  reMatchAt (parseRegex pattern.toList) s.toList

/-- The smdebug trial: collections of tensor names, and per-tensor step
lists and values, all populated by the external service. -/
structure Trial where
  collections : String → List String
  tensorSteps : String → List Nat
  tensorValue : String → Nat → Int

/-- Model of `get_data(trial, tname)`: `steps = tensor.steps()`;
`vals = [tensor.value(s) for s in steps]`; returns `(steps, vals)`. -/
def get_data (trial : Trial) (tname : String) : List Nat × List Int :=
  let steps := trial.tensorSteps tname
  (steps, steps.map (trial.tensorValue tname))

/-- Model of `plot_collection(trial, collection_name, regex)`: the series plotted —
the tensors of the collection, iterated in sorted name order, kept when
`re.match(regex, tensor_name)` succeeds, each with its `get_data`. -/
def plot_collection (trial : Trial) (collection_name : String) (regex : String) :
    List (String × List Nat × List Int) :=
  ((pySorted (trial.collections collection_name)).filter (fun n => reMatch regex n)).map
    (fun n => (n, get_data trial n))

/-- The fixed supported set of `plot_feature_importance`. -/
def SUPPORTED_IMPORTANCE_TYPES : List String :=
  ["weight", "gain", "cover", "total_gain", "total_cover"]

/-- Model of `plot_feature_importance(trial, importance_type)`: a `ValueError` for
an unsupported importance type (no figure), otherwise the
`plot_collection` call on the `feature_importance` collection with the
anchored regex `feature_importance/<type>/.*`. -/
def plot_feature_importance (trial : Trial) (importance_type : String) :
    Except String (List (String × List Nat × List Int)) :=
  if !SUPPORTED_IMPORTANCE_TYPES.contains importance_type then
    Except.error (importance_type ++ " is not one of the supported importance types.")
  else
    Except.ok (plot_collection trial "feature_importance"
      ("feature_importance/" ++ importance_type ++ "/.*"))

/-- The trial with its underlying remote fetches allowed to fail: each
store access either yields data or raises (network error, remote service
error, missing data). -/
structure TrialE where
  collectionsE : String → Except String (List String)
  tensorStepsE : String → Except String (List Nat)
  tensorValueE : String → Nat → Except String Int

/-- Sequential evaluation of a fallible function over a list, stopping at
the first exception — a Python comprehension or loop with no handler. -/
def mapE {α β : Type} (f : α → Except String β) : List α → Except String (List β)
  | [] => Except.ok []
  | a :: l =>
    match f a with
    | Except.error e => Except.error e
    | Except.ok b =>
      match mapE f l with
      | Except.error e => Except.error e
      | Except.ok bs => Except.ok (b :: bs)

/-- Model of `get_data` over the fallible trial: no handler anywhere, so any
exception of an underlying call propagates. -/
def get_dataE (trial : TrialE) (tname : String) : Except String (List Nat × List Int) :=
  match trial.tensorStepsE tname with
  | Except.error e => Except.error e
  | Except.ok steps =>
    match mapE (trial.tensorValueE tname) steps with
    | Except.error e => Except.error e
    | Except.ok vals => Except.ok (steps, vals)

/-- Model of `plot_collection` over the fallible trial: again no handler. -/
def plot_collectionE (trial : TrialE) (collection_name : String) (regex : String) :
    Except String (List (String × List Nat × List Int)) :=
  match trial.collectionsE collection_name with
  | Except.error e => Except.error e
  | Except.ok tensors =>
    mapE (fun n =>
        match get_dataE trial n with
        | Except.error e => Except.error e
        | Except.ok sd => Except.ok (n, sd))
      ((pySorted tensors).filter (fun n => reMatch regex n))

/-- Model of `plot_feature_importance` over the fallible trial: the one explicit
validation check, then the unguarded `plot_collection` call. -/
def plot_feature_importanceE (trial : TrialE) (importance_type : String) :
    Except String (List (String × List Nat × List Int)) :=
  if !SUPPORTED_IMPORTANCE_TYPES.contains importance_type then
    Except.error (importance_type ++ " is not one of the supported importance types.")
  else
    plot_collectionE trial "feature_importance"
      ("feature_importance/" ++ importance_type ++ "/.*")

/-- One `describe_training_job` response, as the polling cell reads it. -/
structure JobDescription where
  trainingJobStatus : String
  secondaryStatus : String

/-- The negation of the `while` condition of cell 30: the loop stops when
`description['SecondaryStatus']` is in `['Training', 'Completed']`. -/
def pollExit (d : JobDescription) : Bool :=
  ["Training", "Completed"].contains d.secondaryStatus

/-- The polling loop, over the stream `descs` of successive
`describe_training_job` responses, with fuel: `pollRun descs i fuel` is the
index at which the loop stops, starting from the `i`-th response. Each
iteration prints the statuses and sleeps 15 seconds before re-querying. -/
def pollRun (descs : Nat → JobDescription) : Nat → Nat → Option Nat
  | _, 0 => none
  | i, fuel + 1 => if pollExit (descs i) then some i else pollRun descs (i + 1) fuel

/-- Cell 30: describe the job once; if `TrainingJobStatus` is already
`Completed` skip the loop, else poll until the loop condition fails.
Returns the index of the response the cell stops at. -/
def monitorTrainingJob (descs : Nat → JobDescription) (fuel : Nat) : Option Nat :=
  if (descs 0).trainingJobStatus == "Completed" then some 0
  else pollRun descs 0 fuel

/-- Modelled from the spec: a terminal phase of the training job — the job
has ended (completed, failed, or stopped). The notebook itself defines no
terminality notion; the spec's polling sentence appeals to one. -/
def isTerminalStatus (s : String) : Bool :=
  ["Completed", "Failed", "Stopped"].contains s

/-- A small concrete trial used to exercise the plotting helpers. -/
def sampleTrial : Trial where
  collections := fun c =>
    if c = "feature_importance" then
      ["feature_importance/weight/f1", "feature_importance/total_gain/f0",
       "feature_importance/gain/f0", "feature_importance/gain/f1"]
    else if c = "metrics" then ["train-rmse", "validation-rmse"]
    else []
  tensorSteps := fun _ => [0, 2, 4]
  tensorValue := fun _ s => Int.ofNat s

/-- A small concrete fallible trial whose fetches all succeed. -/
def sampleTrialE : TrialE where
  collectionsE := fun c =>
    if c = "feature_importance" then
      Except.ok ["feature_importance/gain/f0", "feature_importance/weight/f0"]
    else Except.ok []
  tensorStepsE := fun _ => Except.ok [0, 2]
  tensorValueE := fun _ s => Except.ok (Int.ofNat s)

/-- A small concrete input table: two rows, with the raw columns the
cleaning step reads and the six columns it drops. -/
def demoData : Frame :=
  [("age", [Value.num 30, Value.num 41]),
   ("job", [Value.str "student", Value.str "admin."]),
   ("pdays", [Value.num 999, Value.num 3]),
   ("duration", [Value.num 100, Value.num 200]),
   ("emp.var.rate", [Value.num 1, Value.num 1]),
   ("cons.price.idx", [Value.num 93, Value.num 93]),
   ("cons.conf.idx", [Value.num (-36), Value.num (-36)]),
   ("euribor3m", [Value.num 4, Value.num 4]),
   ("nr.employed", [Value.num 5191, Value.num 5191]),
   ("y", [Value.str "no", Value.str "yes"])]

/-- A small concrete split subset, as it looks after `get_dummies`:
numeric features plus the two one-hot label columns. -/
def demoSplit : Frame :=
  [("age", [Value.num 30, Value.num 41]),
   ("campaign", [Value.num 1, Value.num 2]),
   ("y_no", [Value.num 1, Value.num 0]),
   ("y_yes", [Value.num 0, Value.num 1])]

/-- A status stream that reports the non-terminal `Training` phase from
the start. -/
def descsTraining : Nat → JobDescription := fun _ =>
  { trainingJobStatus := "InProgress", secondaryStatus := "Training" }

/-- A status stream that reports the terminal `Failed` phase from the
start. -/
def descsFailed : Nat → JobDescription := fun _ =>
  { trainingJobStatus := "InProgress", secondaryStatus := "Failed" }

/-- A status stream: two `Starting` responses, then `Training`. -/
def descsStarting : Nat → JobDescription := fun i =>
  if i < 2 then { trainingJobStatus := "InProgress", secondaryStatus := "Starting" }
  else { trainingJobStatus := "InProgress", secondaryStatus := "Training" }

/-- A concrete identity permutation family for the split witnesses. -/
def identityPerm : Nat → Nat → List Nat := fun _ n => List.range n

/- ### General lemmas about the embedding -/

theorem lookup_mem {β : Type} {l : List (String × β)} {k : String} {v : β}
    (h : List.lookup k l = some v) : (k, v) ∈ l := by
  induction l with
  | nil => simp [List.lookup] at h
  | cons p tl ih =>
    obtain ⟨k', v'⟩ := p
    by_cases hk : k = k'
    · subst hk
      simp [List.lookup_cons] at h
      simp [h]
    · have hbeq : (k == k') = false := by simp [hk]
      rw [List.lookup_cons] at h
      simp only [hbeq] at h
      exact List.mem_cons_of_mem _ (ih h)

theorem lookup_isSome_of_mem_keys {β : Type} {l : List (String × β)} {k : String}
    (h : k ∈ l.map Prod.fst) : (List.lookup k l).isSome = true := by
  induction l with
  | nil => simp at h
  | cons p tl ih =>
    obtain ⟨k', v'⟩ := p
    by_cases hk : k = k'
    · subst hk; simp [List.lookup_cons]
    · have hbeq : (k == k') = false := by simp [hk]
      simp only [List.map_cons, List.mem_cons] at h
      rcases h with h | h
      · exact absurd h hk
      · rw [List.lookup_cons]
        simp only [hbeq]
        exact ih h

theorem lookup_of_mem_nodup {β : Type} {l : List (String × β)} {k : String} {v : β}
    (hnd : (l.map Prod.fst).Nodup) (hm : (k, v) ∈ l) : List.lookup k l = some v := by
  induction l with
  | nil => simp at hm
  | cons p tl ih =>
    obtain ⟨k', v'⟩ := p
    rcases List.mem_cons.mp hm with heq | htl
    · rw [← heq]
      simp [List.lookup_cons]
    · have hk : k ≠ k' := by
        intro hkk
        subst hkk
        rw [List.map_cons] at hnd
        exact (List.nodup_cons.mp hnd).1 (List.mem_map.mpr ⟨(k, v), htl, rfl⟩)
      have hbeq : (k == k') = false := by simp [hk]
      rw [List.lookup_cons]
      simp only [hbeq]
      rw [List.map_cons] at hnd
      exact ih (List.nodup_cons.mp hnd).2 htl

theorem lookup_filter_of_mem_nodup {β : Type} {l : List (String × β)}
    {pred : String × β → Bool} {k : String} {v : β}
    (hnd : (l.map Prod.fst).Nodup) (hm : (k, v) ∈ l) (hp : pred (k, v) = true) :
    List.lookup k (l.filter pred) = some v := by
  have hsub : List.Sublist ((l.filter pred).map Prod.fst) (l.map Prod.fst) :=
    (List.filter_sublist l).map Prod.fst
  exact lookup_of_mem_nodup (hnd.sublist hsub) (List.mem_filter.mpr ⟨hm, hp⟩)

theorem getCol_length {split : Frame} {n : Nat} {c : String}
    (h : FrameRows split n) (hc : c ∈ colNames split) : (getCol split c).length = n := by
  obtain ⟨v, hv⟩ := Option.isSome_iff_exists.mp (lookup_isSome_of_mem_keys (l := split) hc)
  have hmem := lookup_mem hv
  simp [getCol, hv]
  exact h _ hmem

theorem filterMap_getElem_range {α : Type} (rows : List α) :
    (List.range rows.length).filterMap (fun i => rows[i]?) = rows := by
  induction rows with
  | nil => simp
  | cons a tl ih =>
    rw [List.length_cons, List.range_succ_eq_map]
    simp only [List.filterMap_cons, List.getElem?_cons_zero, List.filterMap_map,
      Function.comp_def, List.getElem?_cons_succ]
    rw [ih]

theorem strLeB_total (a b : List Char) : strLeB a b = true ∨ strLeB b a = true := by
  induction a generalizing b with
  | nil => left; rfl
  | cons c a ih =>
    cases b with
    | nil => right; rfl
    | cons d b =>
      simp only [strLeB]
      rcases lt_trichotomy c d with h | h | h
      · left; simp [h]
      · subst h
        simp only [lt_irrefl, if_false]
        exact ih b
      · right; simp [h]

theorem strLeB_trans {a b c : List Char} (hab : strLeB a b = true)
    (hbc : strLeB b c = true) : strLeB a c = true := by
  induction a generalizing b c with
  | nil => rfl
  | cons x a ih =>
    cases b with
    | nil => simp [strLeB] at hab
    | cons y b =>
      cases c with
      | nil => simp [strLeB] at hbc
      | cons z c =>
        simp only [strLeB] at hab hbc ⊢
        rcases lt_trichotomy x y with h1 | h1 | h1
        · rcases lt_trichotomy y z with h2 | h2 | h2
          · simp [lt_trans h1 h2]
          · subst h2; simp [h1]
          · rw [if_neg (lt_asymm h2), if_pos h2] at hbc
            exact absurd hbc Bool.false_ne_true
        · subst h1
          rcases lt_trichotomy x z with h2 | h2 | h2
          · simp [h2]
          · subst h2
            simp only [lt_irrefl, if_false] at hab hbc ⊢
            exact ih hab hbc
          · rw [if_neg (lt_asymm h2), if_pos h2] at hbc
            exact absurd hbc Bool.false_ne_true
        · rw [if_neg (lt_asymm h1), if_pos h1] at hab
          exact absurd hab Bool.false_ne_true

theorem pyStrLe_total (a b : String) : pyStrLe a b = true ∨ pyStrLe b a = true :=
  strLeB_total a.toList b.toList

theorem pyStrLe_trans {a b c : String} (hab : pyStrLe a b = true)
    (hbc : pyStrLe b c = true) : pyStrLe a c = true :=
  strLeB_trans hab hbc

theorem pySorted_sorted (l : List String) :
    List.Pairwise (fun a b => pyStrLe a b = true) (pySorted l) :=
  @List.sorted_mergeSort String pyStrLe
    (fun a b c h1 h2 => pyStrLe_trans h1 h2)
    (fun a b => by rcases pyStrLe_total a b with h | h <;> simp [h])
    l

theorem pySorted_perm (l : List String) : (pySorted l).Perm l :=
  List.mergeSort_perm l pyStrLe

theorem parseRegex_lits_dotstar (lits : List Char)
    (h : ∀ c ∈ lits, c ≠ '.' ∧ c ≠ '*') :
    parseRegex (lits ++ ['.', '*']) =
      lits.map (fun c => RTerm.atom (RAtom.lit c)) ++ [RTerm.star RAtom.dot] := by
  induction lits with
  | nil => rfl
  | cons c rest ih =>
    have hc := h c (List.mem_cons_self c rest)
    have hrest : ∀ d ∈ rest, d ≠ '.' ∧ d ≠ '*' := fun d hd => h d (List.mem_cons_of_mem c hd)
    have ihr := ih hrest
    cases rest with
    | nil => simp [parseRegex, charAtom, hc.1]
    | cons d rest2 =>
      have hd := hrest d (List.mem_cons_self d rest2)
      rw [List.cons_append] at ihr
      simp only [List.cons_append, List.map_cons, parseRegex, hd.2, if_false, charAtom,
        if_neg hc.1]
      rw [show (rest2.append ['.', '*']) = rest2 ++ ['.', '*'] from rfl, ihr]
      simp

theorem reMatchAt_lits_dotstar (lits s : List Char) :
    reMatchAt (lits.map (fun c => RTerm.atom (RAtom.lit c)) ++ [RTerm.star RAtom.dot]) s =
      lits.isPrefixOf s := by
  induction lits generalizing s with
  | nil =>
    cases s with
    | nil => simp [reMatchAt]
    | cons c s => simp [reMatchAt]
  | cons c lits ih =>
    cases s with
    | nil => simp [reMatchAt, List.isPrefixOf]
    | cons d s =>
      simp only [List.map_cons, List.cons_append, reMatchAt, atomMatch, List.isPrefixOf]
      rw [ih]

theorem reMatch_eq_isPrefixOf (pfxStr name : String)
    (h : ∀ c ∈ pfxStr.toList, c ≠ '.' ∧ c ≠ '*') :
    reMatch (pfxStr ++ ".*") name = pfxStr.toList.isPrefixOf name.toList := by
  unfold reMatch
  rw [show (pfxStr ++ ".*").toList = pfxStr.toList ++ ['.', '*'] from rfl]
  rw [parseRegex_lits_dotstar _ h, reMatchAt_lits_dotstar]

theorem prefix_eq_take_of_both {p q l : List Char}
    (hp : p.isPrefixOf l = true) (hq : q.isPrefixOf l = true)
    (hlen : p.length ≤ q.length) : p = q.take p.length := by
  have hp' : List.IsPrefix p l := List.isPrefixOf_iff_prefix.mp hp
  have hq' : List.IsPrefix q l := List.isPrefixOf_iff_prefix.mp hq
  have e1 : p = l.take p.length := List.prefix_iff_eq_take.mp hp'
  have e2 : q = l.take q.length := List.prefix_iff_eq_take.mp hq'
  rw [e2, List.take_take, Nat.min_eq_left hlen, ← e1]

theorem prefix_incompatible {p q : List Char} {name : String}
    (hne : p ≠ q.take p.length) (hlen : p.length ≤ q.length)
    (hq : q.isPrefixOf name.toList = true) : p.isPrefixOf name.toList = false := by
  cases hp : p.isPrefixOf name.toList with
  | false => rfl
  | true => exact absurd (prefix_eq_take_of_both hp hq hlen) hne

theorem mapE_isOk_iff {α β : Type} (f : α → Except String β) (l : List α) :
    (mapE f l).isOk = true ↔ ∀ a ∈ l, (f a).isOk = true := by
  induction l with
  | nil => simp [mapE, Except.isOk, Except.toBool]
  | cons a l ih =>
    simp only [mapE]
    cases hfa : f a with
    | error e => simp [Except.isOk, Except.toBool, hfa]
    | ok b =>
      rw [List.forall_mem_cons, ← ih, hfa]
      cases mapE f l <;> simp [Except.isOk, Except.toBool]

/- ### Claim theorems -/

/-- C1: for every importance_type outside the fixed supported set
["weight", "gain", "cover", "total_gain", "total_cover"],
plot_feature_importance(trial, importance_type) fails with the validation
error and performs no rendering (plot_collection is never invoked, so no
figure value is produced); for every value inside the set no validation
error is raised and the result is exactly the plot_collection invocation. -/
theorem C1_importance_type_validation (trial : Trial) (t : String) :
    (t ∉ SUPPORTED_IMPORTANCE_TYPES →
      plot_feature_importance trial t =
        Except.error (t ++ " is not one of the supported importance types.")) ∧
    (t ∈ SUPPORTED_IMPORTANCE_TYPES →
      plot_feature_importance trial t =
        Except.ok (plot_collection trial "feature_importance"
          ("feature_importance/" ++ t ++ "/.*"))) := by
  constructor
  · intro h
    simp [plot_feature_importance, h]
  · intro h
    simp [plot_feature_importance, h]

/-- C1 witness: the validation check at the unsupported value "foo" and
the supported value "gain", on a concrete trial. -/
theorem C1_importance_type_validation_witness :
    ("foo" ∉ SUPPORTED_IMPORTANCE_TYPES ∧
      plot_feature_importance sampleTrial "foo" =
        Except.error ("foo" ++ " is not one of the supported importance types.")) ∧
    ("gain" ∈ SUPPORTED_IMPORTANCE_TYPES ∧
      plot_feature_importance sampleTrial "gain" =
        Except.ok (plot_collection sampleTrial "feature_importance"
          ("feature_importance/" ++ "gain" ++ "/.*"))) :=
  ⟨⟨by decide, (C1_importance_type_validation sampleTrial "foo").1 (by decide)⟩,
   ⟨by decide, (C1_importance_type_validation sampleTrial "gain").2 (by decide)⟩⟩

/-- C6: the shuffle-and-split step is deterministic — it is seeded with the
fixed literal random_state=1729, so its result does not depend on the
ambient RNG state, and two runs on the same input table yield identical
subsets. -/
theorem C6_split_deterministic {α : Type} (mkPerm : Nat → Nat → List Nat)
    (g1 g2 : Nat) (rows : List α) :
    trainValTestSplit mkPerm g1 rows = trainValTestSplit mkPerm g2 rows ∧
    sampleFrac1 mkPerm g1 (some 1729) rows = sampleFrac1 mkPerm g2 (some 1729) rows :=
  ⟨rfl, rfl⟩

/-- C7: get_data(trial, tname) is a pass-through: its first component is
exactly the step list the store reports for tname, its second has the same
length, and the i-th value is the stored value of the tensor at the i-th
step. -/
theorem C7_get_data_passthrough (trial : Trial) (tname : String) (i : Nat)
    (hi : i < (trial.tensorSteps tname).length) :
    (get_data trial tname).1 = trial.tensorSteps tname ∧
    (get_data trial tname).2.length = (trial.tensorSteps tname).length ∧
    (get_data trial tname).2[i]? =
      some (trial.tensorValue tname ((trial.tensorSteps tname).getD i 0)) := by
  refine ⟨rfl, by simp [get_data], ?_⟩
  simp only [get_data, List.getElem?_map]
  rw [List.getElem?_eq_getElem hi]
  simp [List.getD_eq_getElem?_getD, List.getElem?_eq_getElem hi]

/-- C7 witness: the pass-through at a concrete trial, tensor and index. -/
theorem C7_get_data_passthrough_witness :
    0 < (sampleTrial.tensorSteps "train-rmse").length ∧
    (get_data sampleTrial "train-rmse").1 = sampleTrial.tensorSteps "train-rmse" ∧
    (get_data sampleTrial "train-rmse").2.length =
      (sampleTrial.tensorSteps "train-rmse").length ∧
    (get_data sampleTrial "train-rmse").2[0]? =
      some (sampleTrial.tensorValue "train-rmse"
        ((sampleTrial.tensorSteps "train-rmse").getD 0 0)) :=
  ⟨by decide, C7_get_data_passthrough sampleTrial "train-rmse" 0 (by decide)⟩

/-- C10: in the written file frame, the label column y_yes appears exactly
once and first, and the complementary one-hot column y_no does not appear
at all — no copy of the label survives among the features. -/
theorem C10_label_not_duplicated (split : Frame) :
    (colNames (labelFirst split)).head? = some "y_yes" ∧
    (colNames (labelFirst split)).count "y_yes" = 1 ∧
    "y_no" ∉ colNames (labelFirst split) := by
  refine ⟨rfl, ?_, ?_⟩
  · simp only [colNames, labelFirst, List.map_cons, List.count_cons]
    have hz : (((dropCols split ["y_no", "y_yes"]).map Prod.fst).count "y_yes") = 0 := by
      rw [List.count_eq_zero]
      intro hmem
      obtain ⟨p, hp, hfst⟩ := List.mem_map.mp hmem
      have := (List.mem_filter.mp hp).2
      rw [hfst] at this
      simp at this
    rw [hz]
    simp
  · intro hmem
    simp only [colNames, labelFirst, List.map_cons, List.mem_cons] at hmem
    rcases hmem with h | h
    · exact absurd h (by decide)
    · obtain ⟨p, hp, hfst⟩ := List.mem_map.mp h
      have := (List.mem_filter.mp hp).2
      rw [hfst] at this
      simp at this

/-- C5 counterexample: the polling loop's exit condition is
SecondaryStatus ∈ ['Training', 'Completed'], not terminality. On a stream
that reports the non-terminal phase 'Training' the loop exits immediately,
and on a stream that reports the terminal phase 'Failed' the loop never
exits. -/
theorem C5_poll_counterexample :
    monitorTrainingJob descsTraining 5 = some 0 ∧
    isTerminalStatus (descsTraining 0).secondaryStatus = false ∧
    pollRun descsFailed 0 5 = none ∧
    isTerminalStatus (descsFailed 0).secondaryStatus = true := by
  refine ⟨?_, by decide, ?_, by decide⟩ <;> decide

/-- C5 (amended): the polling loop sleeps and re-queries until the
described SecondaryStatus is in ['Training', 'Completed'] — i.e. until
training has started or finished — and the loop is skipped when
TrainingJobStatus is already 'Completed'. If the loop stops at response j,
that response's SecondaryStatus is 'Training' or 'Completed' and every
earlier polled response's is neither; if the fuel runs out, every polled
response's SecondaryStatus was neither. -/
theorem C5_poll_exit_amended (descs : Nat → JobDescription) (fuel i j : Nat) :
    (pollRun descs i fuel = some j →
      ((descs j).secondaryStatus = "Training" ∨ (descs j).secondaryStatus = "Completed") ∧
      i ≤ j ∧ j < i + fuel ∧
      ∀ k, i ≤ k → k < j →
        ¬((descs k).secondaryStatus = "Training" ∨ (descs k).secondaryStatus = "Completed")) ∧
    (pollRun descs i fuel = none →
      ∀ k, i ≤ k → k < i + fuel →
        ¬((descs k).secondaryStatus = "Training" ∨ (descs k).secondaryStatus = "Completed")) := by
  have hexit : ∀ d : JobDescription,
      pollExit d = true ↔ (d.secondaryStatus = "Training" ∨ d.secondaryStatus = "Completed") := by
    intro d
    simp [pollExit]
  induction fuel generalizing i with
  | zero =>
    constructor
    · intro h; simp [pollRun] at h
    · intro _ k hik hk; omega
  | succ fuel ih =>
    constructor
    · intro h
      rw [pollRun] at h
      by_cases hx : pollExit (descs i) = true
      · rw [if_pos hx] at h
        obtain rfl : i = j := Option.some.inj h
        refine ⟨(hexit _).mp hx, le_refl _, by omega, ?_⟩
        intro k hik hk; omega
      · rw [if_neg hx] at h
        obtain ⟨h1, h2, h3, h4⟩ := (ih (i + 1)).1 h
        refine ⟨h1, by omega, by omega, ?_⟩
        intro k hik hk
        rcases Nat.eq_or_lt_of_le hik with heq | hlt
        · subst heq
          intro hcon
          exact hx ((hexit _).mpr hcon)
        · exact h4 k (by omega) hk
    · intro h
      rw [pollRun] at h
      by_cases hx : pollExit (descs i) = true
      · rw [if_pos hx] at h; exact absurd h (by simp)
      · rw [if_neg hx] at h
        intro k hik hk
        rcases Nat.eq_or_lt_of_le hik with heq | hlt
        · subst heq
          intro hcon
          exact hx ((hexit _).mpr hcon)
        · exact (ih (i + 1)).2 h k (by omega) (by omega)

/-- C5 (amended) witness: on the stream with two Starting responses then
Training, the loop stops at index 2, which reports Training, and the
earlier responses report neither exit status. -/
theorem C5_poll_exit_amended_witness :
    pollRun descsStarting 0 5 = some 2 ∧
    (((descsStarting 2).secondaryStatus = "Training" ∨
        (descsStarting 2).secondaryStatus = "Completed") ∧
      0 ≤ 2 ∧ 2 < 0 + 5 ∧
      ∀ k, 0 ≤ k → k < 2 →
        ¬((descsStarting k).secondaryStatus = "Training" ∨
          (descsStarting k).secondaryStatus = "Completed")) :=
  ⟨by decide, (C5_poll_exit_amended descsStarting 5 0 2).1 (by decide)⟩

/-- C4: each written artifact (train.csv / validation.csv) is a flat file
with no header row and exactly one line per row of the split subset, and
its first column is the binary label y_yes. -/
theorem C4_csv_file_shape (split : Frame) (n : Nat) (h : FrameRows split n)
    (hy : "y_yes" ∈ colNames split) (i : Nat) (hi : i < n) :
    (writeSplitCsv split).length = n ∧
    (writeSplitCsv split).getD i "" =
      String.intercalate ","
        (valueCsvCell ((getCol split "y_yes").getD i (Value.num 0)) ::
          (dropCols split ["y_no", "y_yes"]).map
            (fun p => valueCsvCell (p.2.getD i (Value.num 0)))) := by
  have hcount : frameRowCount (labelFirst split) = n := by
    simp only [frameRowCount, labelFirst]
    exact getCol_length h hy
  constructor
  · simp [writeSplitCsv, toCsvNoHeader, csvCells, hcount]
  · simp only [writeSplitCsv, toCsvNoHeader, csvCells, hcount]
    rw [List.getD_eq_getElem?_getD, List.getElem?_map, List.getElem?_map,
      List.getElem?_range hi]
    simp [labelFirst]

/-- C4 witness: the file shape on a concrete two-row split subset. -/
theorem C4_csv_file_shape_witness :
    FrameRows demoSplit 2 ∧ "y_yes" ∈ colNames demoSplit ∧ 0 < 2 ∧
    ((writeSplitCsv demoSplit).length = 2 ∧
      (writeSplitCsv demoSplit).getD 0 "" =
        String.intercalate ","
          (valueCsvCell ((getCol demoSplit "y_yes").getD 0 (Value.num 0)) ::
            (dropCols demoSplit ["y_no", "y_yes"]).map
              (fun p => valueCsvCell (p.2.getD 0 (Value.num 0))))) :=
  ⟨by unfold FrameRows; decide, by decide, by decide,
    C4_csv_file_shape demoSplit 2 (by unfold FrameRows; decide) (by decide) 0 (by decide)⟩

/-- C2: the split of cell 14 partitions the table: the three parts have
int(0.7n), int(0.9n)-int(0.7n) and n-int(0.9n) rows, the counts sum to the
input row count, and the concatenation of the three parts is a permutation
of the input rows (pairwise-disjoint row occurrences whose union is the
whole table, obtained by the fixed shuffle then slicing). -/
theorem C2_split_partition {α : Type} (mkPerm : Nat → Nat → List Nat)
    (globalSeed : Nat) (rows : List α)
    (hperm : (mkPerm 1729 rows.length).Perm (List.range rows.length)) :
    (trainValTestSplit mkPerm globalSeed rows).1.length = splitLo rows.length ∧
    (trainValTestSplit mkPerm globalSeed rows).2.1.length =
      splitHi rows.length - splitLo rows.length ∧
    (trainValTestSplit mkPerm globalSeed rows).2.2.length =
      rows.length - splitHi rows.length ∧
    (trainValTestSplit mkPerm globalSeed rows).1.length +
        (trainValTestSplit mkPerm globalSeed rows).2.1.length +
        (trainValTestSplit mkPerm globalSeed rows).2.2.length = rows.length ∧
    ((trainValTestSplit mkPerm globalSeed rows).1 ++
        (trainValTestSplit mkPerm globalSeed rows).2.1 ++
        (trainValTestSplit mkPerm globalSeed rows).2.2).Perm rows := by
  have hshufperm : (sampleFrac1 mkPerm globalSeed (some 1729) rows).Perm rows := by
    unfold sampleFrac1
    have h1 := hperm.filterMap (fun i => rows[i]?)
    rw [filterMap_getElem_range] at h1
    exact h1
  have hlen : (sampleFrac1 mkPerm globalSeed (some 1729) rows).length = rows.length :=
    hshufperm.length_eq
  have hlo : splitLo rows.length ≤ rows.length := by unfold splitLo; omega
  have hhi : splitHi rows.length ≤ rows.length := by unfold splitHi; omega
  have hlohi : splitLo rows.length ≤ splitHi rows.length := by unfold splitLo splitHi; omega
  simp only [trainValTestSplit, npSplit3]
  have e1 : ((sampleFrac1 mkPerm globalSeed (some 1729) rows).take
      (splitLo rows.length)).length = splitLo rows.length := by
    rw [List.length_take, hlen]
    exact min_eq_left hlo
  have e2 : (((sampleFrac1 mkPerm globalSeed (some 1729) rows).drop
      (splitLo rows.length)).take (splitHi rows.length - splitLo rows.length)).length =
      splitHi rows.length - splitLo rows.length := by
    rw [List.length_take, List.length_drop, hlen]
    exact min_eq_left (by omega)
  have e3 : ((sampleFrac1 mkPerm globalSeed (some 1729) rows).drop
      (splitHi rows.length)).length = rows.length - splitHi rows.length := by
    rw [List.length_drop, hlen]
  refine ⟨e1, e2, e3, by rw [e1, e2, e3]; omega, ?_⟩
  have hbc : ((sampleFrac1 mkPerm globalSeed (some 1729) rows).drop
        (splitLo rows.length)).take (splitHi rows.length - splitLo rows.length) ++
      (sampleFrac1 mkPerm globalSeed (some 1729) rows).drop (splitHi rows.length) =
      (sampleFrac1 mkPerm globalSeed (some 1729) rows).drop (splitLo rows.length) := by
    have hd : (sampleFrac1 mkPerm globalSeed (some 1729) rows).drop (splitHi rows.length) =
        ((sampleFrac1 mkPerm globalSeed (some 1729) rows).drop
          (splitLo rows.length)).drop (splitHi rows.length - splitLo rows.length) := by
      rw [List.drop_drop]
      congr 1
      omega
    rw [hd, List.take_append_drop]
  rw [List.append_assoc, hbc, List.take_append_drop]
  exact hshufperm

/-- C2 witness: the partition on a concrete ten-row table with a concrete
permutation family. -/
theorem C2_split_partition_witness :
    (identityPerm 1729 ([10, 20, 30, 40, 50, 60, 70, 80, 90, 100] : List Nat).length).Perm
      (List.range ([10, 20, 30, 40, 50, 60, 70, 80, 90, 100] : List Nat).length) ∧
    ((trainValTestSplit identityPerm 0 ([10, 20, 30, 40, 50, 60, 70, 80, 90, 100] : List Nat)).1.length =
        splitLo ([10, 20, 30, 40, 50, 60, 70, 80, 90, 100] : List Nat).length ∧
      (trainValTestSplit identityPerm 0 ([10, 20, 30, 40, 50, 60, 70, 80, 90, 100] : List Nat)).2.1.length =
        splitHi ([10, 20, 30, 40, 50, 60, 70, 80, 90, 100] : List Nat).length -
          splitLo ([10, 20, 30, 40, 50, 60, 70, 80, 90, 100] : List Nat).length ∧
      (trainValTestSplit identityPerm 0 ([10, 20, 30, 40, 50, 60, 70, 80, 90, 100] : List Nat)).2.2.length =
        ([10, 20, 30, 40, 50, 60, 70, 80, 90, 100] : List Nat).length -
          splitHi ([10, 20, 30, 40, 50, 60, 70, 80, 90, 100] : List Nat).length ∧
      (trainValTestSplit identityPerm 0 ([10, 20, 30, 40, 50, 60, 70, 80, 90, 100] : List Nat)).1.length +
          (trainValTestSplit identityPerm 0 ([10, 20, 30, 40, 50, 60, 70, 80, 90, 100] : List Nat)).2.1.length +
          (trainValTestSplit identityPerm 0 ([10, 20, 30, 40, 50, 60, 70, 80, 90, 100] : List Nat)).2.2.length =
        ([10, 20, 30, 40, 50, 60, 70, 80, 90, 100] : List Nat).length ∧
      ((trainValTestSplit identityPerm 0 ([10, 20, 30, 40, 50, 60, 70, 80, 90, 100] : List Nat)).1 ++
          (trainValTestSplit identityPerm 0 ([10, 20, 30, 40, 50, 60, 70, 80, 90, 100] : List Nat)).2.1 ++
          (trainValTestSplit identityPerm 0 ([10, 20, 30, 40, 50, 60, 70, 80, 90, 100] : List Nat)).2.2).Perm
        ([10, 20, 30, 40, 50, 60, 70, 80, 90, 100] : List Nat)) :=
  ⟨by decide,
    C2_split_partition identityPerm 0 [10, 20, 30, 40, 50, 60, 70, 80, 90, 100] (by decide)⟩

theorem importance_pattern_split (t : String) :
    ("feature_importance/" ++ t ++ "/.*") = ("feature_importance/" ++ t ++ "/") ++ ".*" := by
  have h : ("/" : String) ++ ".*" = "/.*" := rfl
  calc "feature_importance/" ++ t ++ "/.*"
      = "feature_importance/" ++ t ++ ("/" ++ ".*") := by rw [h]
    _ = ("feature_importance/" ++ t ++ "/") ++ ".*" := (String.append_assoc _ _ _).symm

/-- C9: plot_collection plots exactly the tensors of the collection whose
names match the regex anchored at the start, iterated in sorted name
order; hence plot_feature_importance(trial, t) plots exactly the tensors
whose names start with "feature_importance/<t>/", and for t = "gain" the
"total_gain" tensors are excluded (symmetrically "cover" / "total_cover"). -/
theorem C9_plot_collection_anchored (trial : Trial) (t : String)
    (ht : t ∈ SUPPORTED_IMPORTANCE_TYPES) :
    plot_feature_importance trial t =
      Except.ok (plot_collection trial "feature_importance"
        ("feature_importance/" ++ t ++ "/.*")) ∧
    (∀ name sd, (name, sd) ∈ plot_collection trial "feature_importance"
        ("feature_importance/" ++ t ++ "/.*") ↔
      (name ∈ trial.collections "feature_importance" ∧ sd = get_data trial name ∧
        ("feature_importance/" ++ t ++ "/").toList.isPrefixOf name.toList = true)) ∧
    List.Pairwise (fun a b => pyStrLe a.1 b.1 = true)
      (plot_collection trial "feature_importance" ("feature_importance/" ++ t ++ "/.*")) ∧
    (t = "gain" → ∀ name sd,
      ("feature_importance/total_gain/").toList.isPrefixOf name.toList = true →
      (name, sd) ∉ plot_collection trial "feature_importance"
        ("feature_importance/" ++ t ++ "/.*")) ∧
    (t = "cover" → ∀ name sd,
      ("feature_importance/total_cover/").toList.isPrefixOf name.toList = true →
      (name, sd) ∉ plot_collection trial "feature_importance"
        ("feature_importance/" ++ t ++ "/.*")) := by
  have hclean : ∀ c ∈ ("feature_importance/" ++ t ++ "/").toList, c ≠ '.' ∧ c ≠ '*' := by
    fin_cases ht <;> decide
  have hre : ∀ name, reMatch ("feature_importance/" ++ t ++ "/.*") name =
      ("feature_importance/" ++ t ++ "/").toList.isPrefixOf name.toList := by
    intro name
    rw [importance_pattern_split]
    exact reMatch_eq_isPrefixOf _ _ hclean
  have hchar : ∀ name sd, (name, sd) ∈ plot_collection trial "feature_importance"
      ("feature_importance/" ++ t ++ "/.*") ↔
      (name ∈ trial.collections "feature_importance" ∧ sd = get_data trial name ∧
        ("feature_importance/" ++ t ++ "/").toList.isPrefixOf name.toList = true) := by
    intro name sd
    simp only [plot_collection, List.mem_map, List.mem_filter, Prod.mk.injEq]
    constructor
    · rintro ⟨m, ⟨hms, hmq⟩, rfl, rfl⟩
      rw [hre m] at hmq
      exact ⟨(pySorted_perm _).mem_iff.mp hms, rfl, hmq⟩
    · rintro ⟨hms, rfl, hpf⟩
      exact ⟨name, ⟨(pySorted_perm _).mem_iff.mpr hms, by rw [hre name]; exact hpf⟩, rfl, rfl⟩
  refine ⟨?_, hchar, ?_, ?_, ?_⟩
  · have hc : SUPPORTED_IMPORTANCE_TYPES.contains t = true := by simpa using ht
    simp [plot_feature_importance, ht]
  · exact List.pairwise_map.mpr (List.Pairwise.filter _ (pySorted_sorted _))
  · rintro rfl name sd htot hmem
    have h1 := ((hchar name sd).mp hmem).2.2
    have h2 : ("feature_importance/" ++ "gain" ++ "/").toList.isPrefixOf name.toList = false :=
      prefix_incompatible (by decide) (by decide) htot
    rw [h1] at h2
    simp at h2
  · rintro rfl name sd htot hmem
    have h1 := ((hchar name sd).mp hmem).2.2
    have h2 : ("feature_importance/" ++ "cover" ++ "/").toList.isPrefixOf name.toList = false :=
      prefix_incompatible (by decide) (by decide) htot
    rw [h1] at h2
    simp at h2

/-- C9 witness: on a concrete trial, the gain tensor is plotted by
plot_feature_importance(trial, "gain") and the total_gain tensor is not. -/
theorem C9_plot_collection_anchored_witness :
    "gain" ∈ SUPPORTED_IMPORTANCE_TYPES ∧
    (("feature_importance/gain/f0",
        get_data sampleTrial "feature_importance/gain/f0") ∈
      plot_collection sampleTrial "feature_importance"
        ("feature_importance/" ++ "gain" ++ "/.*")) ∧
    (("feature_importance/total_gain/f0", (([], []) : List Nat × List Int)) ∉
      plot_collection sampleTrial "feature_importance"
        ("feature_importance/" ++ "gain" ++ "/.*")) :=
  ⟨by decide,
   ((C9_plot_collection_anchored sampleTrial "gain" (by decide)).2.1 _ _).mpr
     ⟨by decide, rfl, by decide⟩,
   (C9_plot_collection_anchored sampleTrial "gain" (by decide)).2.2.2.1 rfl
     "feature_importance/total_gain/f0" ([], []) (by decide)⟩

/-- C8: the only explicit error handling in the program is the single
input-validation check in plot_feature_importance. get_data and
plot_collection wrap their store accesses in no handler, so they succeed
iff every underlying fetch succeeds (any failure propagates uncaught), and
plot_feature_importance on a supported type is exactly the unguarded
plot_collection call, while on an unsupported type it is the validation
error. -/
theorem C8_error_propagation (trial : TrialE) (cname rgx tname t : String)
    (ht : t ∈ SUPPORTED_IMPORTANCE_TYPES) :
    ((get_dataE trial tname).isOk = true ↔
      (∃ steps, trial.tensorStepsE tname = Except.ok steps ∧
        ∀ s ∈ steps, (trial.tensorValueE tname s).isOk = true)) ∧
    ((plot_collectionE trial cname rgx).isOk = true ↔
      (∃ tensors, trial.collectionsE cname = Except.ok tensors ∧
        ∀ name ∈ (pySorted tensors).filter (fun n => reMatch rgx n),
          (get_dataE trial name).isOk = true)) ∧
    (plot_feature_importanceE trial t =
      plot_collectionE trial "feature_importance"
        ("feature_importance/" ++ t ++ "/.*")) ∧
    (∀ u, u ∉ SUPPORTED_IMPORTANCE_TYPES →
      plot_feature_importanceE trial u =
        Except.error (u ++ " is not one of the supported importance types.")) := by
  refine ⟨?_, ?_, ?_, ?_⟩
  · unfold get_dataE
    cases hs : trial.tensorStepsE tname with
    | error e => simp [Except.isOk, Except.toBool]
    | ok steps =>
      simp only [Except.ok.injEq, exists_eq_left']
      rw [← mapE_isOk_iff (trial.tensorValueE tname) steps]
      cases hm : mapE (trial.tensorValueE tname) steps <;>
        simp [Except.isOk, Except.toBool]
  · unfold plot_collectionE
    cases hc : trial.collectionsE cname with
    | error e => simp [Except.isOk, Except.toBool]
    | ok tensors =>
      simp only [Except.ok.injEq, exists_eq_left']
      rw [mapE_isOk_iff]
      constructor
      · intro h name hname
        have := h name hname
        cases hg : get_dataE trial name with
        | error e => rw [hg] at this; simp [Except.isOk, Except.toBool] at this
        | ok sd => simp [Except.isOk, Except.toBool]
      · intro h name hname
        have := h name hname
        cases hg : get_dataE trial name with
        | error e => rw [hg] at this; simp [Except.isOk, Except.toBool] at this
        | ok sd => simp [Except.isOk, Except.toBool]
  · simp [plot_feature_importanceE, ht]
  · intro u hu
    simp [plot_feature_importanceE, hu]

/-- C8 witness: the propagation characterization at a concrete fallible
trial and concrete arguments. -/
theorem C8_error_propagation_witness :
    "gain" ∈ SUPPORTED_IMPORTANCE_TYPES ∧
    (((get_dataE sampleTrialE "x").isOk = true ↔
      (∃ steps, sampleTrialE.tensorStepsE "x" = Except.ok steps ∧
        ∀ s ∈ steps, (sampleTrialE.tensorValueE "x" s).isOk = true)) ∧
    ((plot_collectionE sampleTrialE "metrics" ".*").isOk = true ↔
      (∃ tensors, sampleTrialE.collectionsE "metrics" = Except.ok tensors ∧
        ∀ name ∈ (pySorted tensors).filter (fun n => reMatch ".*" n),
          (get_dataE sampleTrialE name).isOk = true)) ∧
    (plot_feature_importanceE sampleTrialE "gain" =
      plot_collectionE sampleTrialE "feature_importance"
        ("feature_importance/" ++ "gain" ++ "/.*")) ∧
    (∀ u, u ∉ SUPPORTED_IMPORTANCE_TYPES →
      plot_feature_importanceE sampleTrialE u =
        Except.error (u ++ " is not one of the supported importance types."))) :=
  ⟨by decide, C8_error_propagation sampleTrialE "metrics" ".*" "x" "gain" (by decide)⟩

theorem setCol_append {df : Frame} {c : String} {vals : List Value}
    (h : c ∉ colNames df) : setCol df c vals = df ++ [(c, vals)] := by
  unfold setCol
  rw [if_neg]
  intro hany
  rw [List.any_eq_true] at hany
  obtain ⟨p, hp, hbeq⟩ := hany
  exact h (List.mem_map.mpr ⟨p, hp, (beq_iff_eq.mp hbeq)⟩)

theorem getCol_append_single (df : Frame) (c c' : String) (vals : List Value)
    (h : c ≠ c') : getCol (df ++ [(c', vals)]) c = getCol df c := by
  unfold getCol
  rw [List.lookup_append]
  have hnone : List.lookup c [(c', vals)] = none := by
    have hbeq : (c == c') = false := by simp [h]
    simp [List.lookup_cons, hbeq]
  rw [hnone, Option.or_none]

theorem addClean_eq (data : Frame) (h1 : "no_previous_contact" ∉ colNames data)
    (h2 : "not_working" ∉ colNames data) :
    addCleanColumns data =
      (data ++ [("no_previous_contact", npWhere (seriesEqNum (getCol data "pdays") 999))]) ++
        [("not_working",
          npWhere (np_in1d (getCol data "job") ["student", "retired", "unemployed"]))] := by
  unfold addCleanColumns
  rw [setCol_append h1]
  have h2' : "not_working" ∉
      colNames (data ++ [("no_previous_contact",
        npWhere (seriesEqNum (getCol data "pdays") 999))]) := by
    rw [colNames, List.map_append]
    intro hmem
    rcases List.mem_append.mp hmem with h | h
    · exact h2 h
    · simp at h
  rw [setCol_append h2',
    getCol_append_single data "job" "no_previous_contact" _ (by decide)]

theorem colNames_addClean (data : Frame) (h1 : "no_previous_contact" ∉ colNames data)
    (h2 : "not_working" ∉ colNames data) :
    colNames (addCleanColumns data) =
      colNames data ++ ["no_previous_contact", "not_working"] := by
  rw [addClean_eq data h1 h2]
  simp [colNames]

theorem colNames_addClean_nodup (data : Frame) (hnd : (colNames data).Nodup)
    (h1 : "no_previous_contact" ∉ colNames data)
    (h2 : "not_working" ∉ colNames data) :
    (colNames (addCleanColumns data)).Nodup := by
  rw [colNames_addClean data h1 h2, List.nodup_append]
  refine ⟨hnd, by decide, ?_⟩
  intro a ha hb
  simp only [List.mem_cons, List.mem_singleton, List.not_mem_nil, or_false] at hb
  rcases hb with rfl | rfl
  · exact h1 ha
  · exact h2 ha

theorem isObjectCol_eq_false_of_nums {vals : List Value}
    (h : ∀ v ∈ vals, ∃ k, v = Value.num k) : isObjectCol vals = false := by
  rw [isObjectCol, List.any_eq_false]
  intro v hv
  obtain ⟨k, rfl⟩ := h v hv
  simp

theorem isObjectCol_npWhere (l : List Bool) : isObjectCol (npWhere l) = false := by
  apply isObjectCol_eq_false_of_nums
  intro v hv
  obtain ⟨b, _, rfl⟩ := List.mem_map.mp hv
  cases b
  · exact ⟨0, rfl⟩
  · exact ⟨1, rfl⟩

theorem isObjectCol_dummyCol (vals : List Value) (v : String) :
    isObjectCol (dummyCol vals v) = false := by
  apply isObjectCol_eq_false_of_nums
  intro x hx
  obtain ⟨w, _, rfl⟩ := List.mem_map.mp hx
  by_cases hw : (w == Value.str v) = true
  · simp [hw]
  · rw [Bool.not_eq_true] at hw
    simp [hw]

theorem npWhere_length (l : List Bool) : (npWhere l).length = l.length := by
  simp [npWhere]

theorem seriesEqNum_length (vals : List Value) (k : Int) :
    (seriesEqNum vals k).length = vals.length := by
  simp [seriesEqNum]

theorem np_in1d_length (vals : List Value) (strs : List String) :
    (np_in1d vals strs).length = vals.length := by
  simp [np_in1d]

theorem dummyCol_length (vals : List Value) (v : String) :
    (dummyCol vals v).length = vals.length := by
  simp [dummyCol]

theorem FrameRows_addClean {data : Frame} {n : Nat} (hn : FrameRows data n)
    (hp : "pdays" ∈ colNames data) (hj : "job" ∈ colNames data)
    (h1 : "no_previous_contact" ∉ colNames data)
    (h2 : "not_working" ∉ colNames data) :
    FrameRows (addCleanColumns data) n := by
  rw [addClean_eq data h1 h2]
  intro p hp'
  rcases List.mem_append.mp hp' with h | h
  · rcases List.mem_append.mp h with h' | h'
    · exact hn p h'
    · rw [List.mem_singleton] at h'
      subst h'
      simp only [npWhere_length, seriesEqNum_length]
      exact getCol_length hn hp
  · rw [List.mem_singleton] at h
    subst h
    simp only [npWhere_length, np_in1d_length]
    exact getCol_length hn hj

theorem FrameRows_get_dummies {df : Frame} {n : Nat} (hn : FrameRows df n) :
    FrameRows (get_dummies df) n := by
  intro p hp
  unfold get_dummies at hp
  rcases List.mem_append.mp hp with h | h
  · exact hn p (List.mem_filter.mp h).1
  · obtain ⟨q, hq, hin⟩ := List.mem_flatMap.mp h
    obtain ⟨v, _, rfl⟩ := List.mem_map.mp hin
    simp only [dummyCol_length]
    exact hn q (List.mem_filter.mp hq).1

theorem FrameRows_dropCols {df : Frame} {n : Nat} {cs : List String}
    (hn : FrameRows df n) : FrameRows (dropCols df cs) n :=
  fun p hp => hn p (List.mem_filter.mp hp).1

theorem lookup_makeModelData {data : Frame} {k : String} {vals : List Value}
    (hnd : (colNames (addCleanColumns data)).Nodup)
    (hm : (k, vals) ∈ addCleanColumns data)
    (hobj : isObjectCol vals = false)
    (hdrop : droppedColumns.contains k = false) :
    getCol (makeModelData data) k = vals := by
  unfold makeModelData dropCols get_dummies getCol
  rw [List.filter_append, List.lookup_append, List.filter_filter]
  have hfirst : List.lookup k ((addCleanColumns data).filter
      (fun p => !droppedColumns.contains p.1 && !isObjectCol p.2)) = some vals := by
    apply lookup_filter_of_mem_nodup hnd hm
    have hk : k ∉ droppedColumns := by simpa using hdrop
    simp [hobj, hk]
  rw [hfirst]
  rfl

theorem dummy_mem_get_dummies {df : Frame} {p : String × List Value}
    (hp : p ∈ df) (hobj : isObjectCol p.2 = true)
    {v : String} (hv : v ∈ distinctSorted p.2) :
    (p.1 ++ "_" ++ v, dummyCol p.2 v) ∈ get_dummies df := by
  unfold get_dummies
  exact List.mem_append_right _ (List.mem_flatMap.mpr
    ⟨p, List.mem_filter.mpr ⟨hp, hobj⟩, List.mem_map.mpr ⟨v, hv, rfl⟩⟩)

theorem obj_not_in_get_dummies {df : Frame} {p : String × List Value}
    (hobj : isObjectCol p.2 = true) : p ∉ get_dummies df := by
  intro hmem
  unfold get_dummies at hmem
  rcases List.mem_append.mp hmem with h | h
  · have := (List.mem_filter.mp h).2
    rw [hobj] at this
    simp at this
  · obtain ⟨q, _, hin⟩ := List.mem_flatMap.mp h
    obtain ⟨v, _, heq⟩ := List.mem_map.mp hin
    have hsnd : dummyCol q.2 v = p.2 := congrArg Prod.snd heq
    rw [← hsnd, isObjectCol_dummyCol] at hobj
    exact Bool.false_ne_true hobj

theorem colNames_dropCols (df : Frame) (cs : List String) :
    colNames (dropCols df cs) = (colNames df).filter (fun c => !cs.contains c) := by
  unfold colNames dropCols
  rw [List.filter_map]
  rfl

/-- C3: the cleaning step maps the input table to a table with the same
rows in which the two synthetic indicator columns are added
(no_previous_contact = 1 iff pdays == 999; not_working = 1 iff job is
student/retired/unemployed), every categorical column is expanded into one
indicator column per distinct value (and removed itself), and exactly the
six columns duration, emp.var.rate, cons.price.idx, cons.conf.idx,
euribor3m, nr.employed are dropped. -/
theorem C3_cleaning_step (data : Frame) (n : Nat)
    (hn : FrameRows data n)
    (hnd : (colNames data).Nodup)
    (hp : "pdays" ∈ colNames data) (hj : "job" ∈ colNames data)
    (h1 : "no_previous_contact" ∉ colNames data)
    (h2 : "not_working" ∉ colNames data)
    (hsix : ∀ c ∈ droppedColumns, c ∈ colNames data)
    (hsixnum : ∀ p ∈ data, p.1 ∈ droppedColumns → isObjectCol p.2 = false) :
    FrameRows (makeModelData data) n ∧
    getCol (makeModelData data) "no_previous_contact" =
      npWhere (seriesEqNum (getCol data "pdays") 999) ∧
    getCol (makeModelData data) "not_working" =
      npWhere (np_in1d (getCol data "job") ["student", "retired", "unemployed"]) ∧
    (∀ p ∈ addCleanColumns data, isObjectCol p.2 = true →
      (∀ v ∈ distinctSorted p.2,
        (p.1 ++ "_" ++ v, dummyCol p.2 v) ∈ get_dummies (addCleanColumns data)) ∧
      p ∉ get_dummies (addCleanColumns data)) ∧
    colNames (makeModelData data) =
      (colNames (get_dummies (addCleanColumns data))).filter
        (fun c => !droppedColumns.contains c) ∧
    (∀ c ∈ droppedColumns, c ∈ colNames (get_dummies (addCleanColumns data)) ∧
      c ∉ colNames (makeModelData data)) := by
  have hndA : (colNames (addCleanColumns data)).Nodup :=
    colNames_addClean_nodup data hnd h1 h2
  have heq := addClean_eq data h1 h2
  refine ⟨?_, ?_, ?_, ?_, ?_, ?_⟩
  · exact FrameRows_dropCols (FrameRows_get_dummies (FrameRows_addClean hn hp hj h1 h2))
  · apply lookup_makeModelData hndA
    · rw [heq]
      exact List.mem_append_left _ (List.mem_append_right _ (List.mem_singleton.mpr rfl))
    · exact isObjectCol_npWhere _
    · decide
  · apply lookup_makeModelData hndA
    · rw [heq]
      exact List.mem_append_right _ (List.mem_singleton.mpr rfl)
    · exact isObjectCol_npWhere _
    · decide
  · intro p hpA hobj
    exact ⟨fun v hv => dummy_mem_get_dummies hpA hobj hv, obj_not_in_get_dummies hobj⟩
  · exact colNames_dropCols _ _
  · intro c hc
    obtain ⟨pr, hpr, hfst⟩ := List.mem_map.mp (hsix c hc)
    have hobj : isObjectCol pr.2 = false := hsixnum pr hpr (by rw [hfst]; exact hc)
    have hmemA : pr ∈ addCleanColumns data := by
      rw [heq]
      exact List.mem_append_left _ (List.mem_append_left _ hpr)
    have hmemG : pr ∈ get_dummies (addCleanColumns data) := by
      unfold get_dummies
      exact List.mem_append_left _ (List.mem_filter.mpr ⟨hmemA, by simp [hobj]⟩)
    constructor
    · exact List.mem_map.mpr ⟨pr, hmemG, hfst⟩
    · intro hmem
      unfold makeModelData at hmem
      rw [colNames_dropCols] at hmem
      have hkeep := (List.mem_filter.mp hmem).2
      have hcontain : droppedColumns.contains c = true := by simpa using hc
      rw [hcontain] at hkeep
      simp at hkeep

/-- C3 witness: the cleaning-step characterization on the concrete
two-row table. -/
theorem C3_cleaning_step_witness :
    FrameRows demoData 2 ∧ (colNames demoData).Nodup ∧
    "pdays" ∈ colNames demoData ∧ "job" ∈ colNames demoData ∧
    "no_previous_contact" ∉ colNames demoData ∧ "not_working" ∉ colNames demoData ∧
    (∀ c ∈ droppedColumns, c ∈ colNames demoData) ∧
    (∀ p ∈ demoData, p.1 ∈ droppedColumns → isObjectCol p.2 = false) ∧
    (FrameRows (makeModelData demoData) 2 ∧
      getCol (makeModelData demoData) "no_previous_contact" =
        npWhere (seriesEqNum (getCol demoData "pdays") 999) ∧
      getCol (makeModelData demoData) "not_working" =
        npWhere (np_in1d (getCol demoData "job") ["student", "retired", "unemployed"]) ∧
      (∀ p ∈ addCleanColumns demoData, isObjectCol p.2 = true →
        (∀ v ∈ distinctSorted p.2,
          (p.1 ++ "_" ++ v, dummyCol p.2 v) ∈ get_dummies (addCleanColumns demoData)) ∧
        p ∉ get_dummies (addCleanColumns demoData)) ∧
      colNames (makeModelData demoData) =
        (colNames (get_dummies (addCleanColumns demoData))).filter
          (fun c => !droppedColumns.contains c) ∧
      (∀ c ∈ droppedColumns, c ∈ colNames (get_dummies (addCleanColumns demoData)) ∧
        c ∉ colNames (makeModelData demoData))) :=
  ⟨by unfold FrameRows; decide, by decide, by decide, by decide, by decide, by decide,
    by decide, by decide,
    C3_cleaning_step demoData 2 (by unfold FrameRows; decide) (by decide) (by decide)
      (by decide) (by decide) (by decide) (by decide) (by decide)⟩
